import Mathlib

/-!
Shallow embedding of the medical-archive ingestion and retrieval pipeline
(`demo.py`, `utils.py`).  The document store (MongoDB collection), the
GridFS binary store, the DICOM decoder, the embedding model and the vector
query backend are external collaborators; they are modelled as explicit
state (`ArchiveState`) and oracles (`Env`, a vector-query function).  All
control flow — duplicate checks, per-candidate exception handling, pixel
normalization, median-file selection, the aggregation call — is translated
directly from the Python source.
-/

namespace MedArchive

/-- A document stored in the `PatientScans` collection (a ScanRecord).
Fields follow the dictionaries built in `insert_patient_record` and in the
bulk ingest loop of `demo.py`; fields absent in the single-record path are
`Option`s. -/
structure ScanDoc where
  patient_id : String
  name : String
  scan_type : String
  clinician_notes : Option String
  image_file_id : Nat
  image_vector : List ℚ
  dicom_source : Option String
deriving Repr, DecidableEq

/-- State of the external stores: the document collection (list of inserted
documents, in insertion order) and the GridFS file store (list of stored
filenames; a file's id is its position). -/
structure ArchiveState where
  docs : List ScanDoc
  files : List String
deriving Repr, DecidableEq

/-- `collection.count_documents` with filter on `patient_id` and `scan_type`. -/
def countDocuments (pid stype : String) (docs : List ScanDoc) : Nat :=
  (docs.filter (fun d => d.patient_id == pid && d.scan_type == stype)).length

/-- The duck-typed input of `get_real_embedding`: a file path (string) or an
already decoded image, here identified by its normalized pixel data. -/
inductive ImageSource where
  | path (p : String)
  | image (pixels : List ℚ)
deriving Repr, DecidableEq

/-- Deterministic behaviour of the external collaborators during a run:
the embedding model (`none` = the encode call raises), the DICOM pixel
decoder (`none` = `dcmread`/`pixel_array` raises), file readability for the
single-record `open` call, and whether `insert_one` succeeds for a given
(patient_id, scan_type) document. -/
structure Env where
  embed : ImageSource → Option (List ℚ)
  decode : String → Option (List Int)
  fileOk : String → Bool
  insertOk : String → String → Bool

/-- `get_real_embedding` (utils.py): runs the model inside a try/except and
returns the empty list on any failure instead of raising. -/
def get_real_embedding (env : Env) (source : ImageSource) : List ℚ :=
  match env.embed source with
  | some v => v
  | none => []

/-- `pixel_array.max()` — maximum entry of a (nonempty) pixel array. -/
def arrayMax (px : List Int) : Int :=
  px.foldl max (px.headD 0)

/-- The normalization `(np.maximum(pixel_array, 0) / pixel_array.max()) * 255.0`
from `process_dicom_image` (utils.py) and the bulk loop (demo.py).  The
division by the per-image maximum is performed unconditionally — there is no
check that the maximum is nonzero. -/
def normalizePixels (px : List Int) : List ℚ :=
  px.map (fun p => ((max p 0 : Int) : ℚ) / ((arrayMax px : Int) : ℚ) * 255)

/-- Outcome of the scan normalizer.  `decodeFailure` models the exception
path of `process_dicom_image`; `emptyPixelData` is the signal the design
document names for a zero-valued intensity range — the source has no branch
producing it; `normalized` carries the rescaled pixel data. -/
inductive NormResult where
  | decodeFailure
  | emptyPixelData
  | normalized (pixels : List ℚ)
deriving Repr, DecidableEq

/-- `process_dicom_image` (utils.py): decode the DICOM file, clamp negatives
to zero, rescale by the per-image maximum.  Decode errors are caught; a
zero maximum is not checked anywhere, the division is executed regardless. -/
def process_dicom_image (env : Env) (file_path : String) : NormResult :=
  match env.decode file_path with
  | none => NormResult.decodeFailure
  | some px => NormResult.normalized (normalizePixels px)

/-- An ingestion candidate as built by the directory walk (one dictionary
appended to `dataset` in `scan_directory` / `ingest_big_data_archive`). -/
structure Candidate where
  patient_id : String
  original_id : String
  name : String
  scan_type : String
  notes : String
  file_path : String
deriving Repr, DecidableEq

/-- GridFS filename used by the bulk loop. -/
def bulkFileName (r : Candidate) : String :=
  r.patient_id ++ "_" ++ r.scan_type ++ ".jpg"

/-- The document inserted for a bulk candidate (demo.py lines 209-217),
given the decoded pixel array and the GridFS file id obtained from `fs.put`. -/
def bulkDoc (env : Env) (r : Candidate) (px : List Int) (f_id : Nat) : ScanDoc :=
  { patient_id := r.patient_id
    name := r.name
    scan_type := r.scan_type
    clinician_notes := some r.notes
    image_file_id := f_id
    image_vector := get_real_embedding env (ImageSource.image (normalizePixels px))
    dicom_source := some r.file_path }

/-- Counters printed/observable for one bulk run: `success_count`
(demo.py line 219), the number of exceptions caught and logged by the
per-candidate handler, and the number of `count_documents` dedup queries
issued to the store. -/
structure RunStats where
  success_count : Nat
  failures : Nat
  dedup_queries : Nat
deriving Repr, DecidableEq

/-- One iteration of the bulk ingest loop (demo.py lines 175-225): issue the
dedup count query; skip on a hit; otherwise decode (an exception is caught,
logged and isolated), normalize, embed (failures there yield the empty
vector without raising), `fs.put` the payload, then `insert_one` the
document (an insert failure is caught by the same per-candidate handler,
after the file was already stored). -/
def ingestStep (env : Env) (st : ArchiveState × RunStats) (r : Candidate) :
    ArchiveState × RunStats :=
  let s := st.1
  let stats1 : RunStats :=
    { st.2 with dedup_queries := st.2.dedup_queries + 1 }
  if countDocuments r.patient_id r.scan_type s.docs > 0 then
    (s, stats1)
  else
    match env.decode r.file_path with
    | none => (s, { stats1 with failures := stats1.failures + 1 })
    | some px =>
      let f_id := s.files.length
      let s1 : ArchiveState := { s with files := s.files ++ [bulkFileName r] }
      if env.insertOk r.patient_id r.scan_type then
        ({ s1 with docs := s.docs ++ [bulkDoc env r px f_id] },
         { stats1 with success_count := stats1.success_count + 1 })
      else
        (s1, { stats1 with failures := stats1.failures + 1 })

/-- The ingest loop of `ingest_big_data_archive`, fold of `ingestStep` over
the candidate dataset with fresh counters. -/
def ingestLoop (env : Env) (s : ArchiveState) (dataset : List Candidate) :
    ArchiveState × RunStats :=
  dataset.foldl (ingestStep env) (s, ⟨0, 0, 0⟩)

/-- Recognized scan-file extensions (demo.py line 147 / utils.py line 153):
`f.lower().endswith(".ima") or f.lower().endswith(".dcm")`, expressed on the
character list (last four lowercased characters). -/
def isDicomFile (f : String) : Bool :=
  let r := (f.toList.map Char.toLower).reverse
  r.take 4 == ['a', 'm', 'i', '.'] || r.take 4 == ['m', 'c', 'd', '.']

/-- Lexicographic comparison of character lists by code point — the order
Python's `list.sort()` uses on strings. -/
def lexLeB : List Char → List Char → Bool
  | [], _ => true
  | _ :: _, [] => false
  | a :: as, b :: bs =>
    if a.toNat < b.toNat then true
    else if b.toNat < a.toNat then false
    else lexLeB as bs

/-- Python's string order, as a relation on strings. -/
def fileOrder (a b : String) : Prop :=
  lexLeB a.toList b.toList = true

instance : DecidableRel fileOrder := fun a b =>
  inferInstanceAs (Decidable (lexLeB a.toList b.toList = true))

/-- Representative-file selection for one directory (utils.py lines
152-159): filter recognized files, sort lexicographically, take the file at
index `len // 2`. `none` when the directory holds no recognized file. -/
def selectRepresentative (files : List String) : Option String :=
  let dicom_files := files.filter isDicomFile
  if dicom_files.isEmpty then none
  else
    some ((List.insertionSort fileOrder dicom_files).getD
      (dicom_files.length / 2) "")

/-- `int(s)` on an all-digit string. -/
def digitsToNat (cs : List Char) : Nat :=
  cs.foldl (fun n c => n * 10 + (c.toNat - 48)) 0

/-- `str(int(folder)) if folder.isdigit() else folder` — numeric folder
names are reparsed to strip leading zeros. -/
def normalizeId (s : String) : String :=
  if s.length != 0 && s.toList.all Char.isDigit then
    toString (digitsToNat s.toList)
  else s

/-- A directory: its files and its (named) subdirectories. -/
inductive DirTree where
  | dir (files : List String) (subdirs : List (String × DirTree))

/-- One `(root, dirs, files)` triple yielded by `os.walk`, reduced to the
root path, the root's base name and the file list. -/
structure WalkEntry where
  path : String
  name : String
  files : List String
deriving Repr, DecidableEq

mutual

/-- `os.walk` top-down over one directory. -/
def walkTree (path name : String) : DirTree → List WalkEntry
  | DirTree.dir files subs => ⟨path, name, files⟩ :: walkSubs path subs

/-- `os.walk` over the subdirectories, in listing order. -/
def walkSubs (path : String) : List (String × DirTree) → List WalkEntry
  | [] => []
  | (n, t) :: rest => walkTree (path ++ "/" ++ n) n t ++ walkSubs path rest

end

/-- The dataset-building phase shared by `scan_directory` (utils.py) and the
inline walk of `ingest_big_data_archive` (demo.py lines 131-164): for each
immediate subdirectory of the source, normalize its name, skip it unless
the metadata lookup knows the normalized id, then walk it and emit one
candidate per directory that holds recognized scan files. -/
def scan_directory (source_path : String) (meta : String → Option String)
    (folders : List (String × DirTree)) : List Candidate :=
  folders.flatMap (fun pf =>
    let p_id_folder := pf.1
    let p_id_int := normalizeId p_id_folder
    match meta p_id_int with
    | none => []
    | some clinician_notes =>
      (walkTree (source_path ++ "/" ++ p_id_folder) p_id_folder pf.2).flatMap
        (fun e =>
          match selectRepresentative e.files with
          | none => []
          | some target =>
            [{ patient_id := "PAT-" ++ p_id_folder
               original_id := p_id_int
               name := "Patient " ++ p_id_int
               scan_type := e.name
               notes := clinician_notes
               file_path := e.path ++ "/" ++ target }]))

/-- `ingest_big_data_archive` (demo.py): abort (archive untouched) when the
metadata spreadsheet is missing or unreadable (`meta = none`) or the source
path does not exist; otherwise build the dataset, truncate it to the
hardcoded test limit of 300, and run the ingest loop. -/
def ingest_big_data_archive (env : Env) (meta : Option (String → Option String))
    (source_path : String) (sourceOk : Bool)
    (folders : List (String × DirTree)) (s : ArchiveState) :
    ArchiveState × RunStats :=
  match meta with
  | none => (s, ⟨0, 0, 0⟩)
  | some m =>
    if sourceOk then
      ingestLoop env s ((scan_directory source_path m folders).take 300)
    else (s, ⟨0, 0, 0⟩)

/-- The document inserted by `insert_patient_record`. -/
def singleDoc (env : Env) (p_id nm s_type img_path : String) (f_id : Nat) :
    ScanDoc :=
  { patient_id := p_id
    name := nm
    scan_type := s_type
    clinician_notes := none
    image_file_id := f_id
    image_vector := get_real_embedding env (ImageSource.path img_path)
    dicom_source := none }

/-- `insert_patient_record` (demo.py lines 65-83): count-check, embed (never
raises), open the image file (an unreadable file raises out of the function
before anything is stored), `fs.put`, `insert_one` (a failing insert raises
after the file was stored). -/
def insert_patient_record (env : Env) (s : ArchiveState)
    (p_id nm s_type img_path : String) : ArchiveState :=
  if countDocuments p_id s_type s.docs > 0 then s
  else if env.fileOk img_path then
    let f_id := s.files.length
    let s1 : ArchiveState :=
      { s with files := s.files ++ [p_id ++ "_" ++ s_type ++ ".jpg"] }
    if env.insertOk p_id s_type then
      { s1 with docs := s.docs ++ [singleDoc env p_id nm s_type img_path f_id] }
    else s1
  else s

/-- An ingestion operation: single-record intake or a bulk run. -/
inductive Op where
  | single (p_id nm s_type img_path : String)
  | bulk (meta : Option (String → Option String)) (source_path : String)
      (sourceOk : Bool) (folders : List (String × DirTree))

/-- Effect of one ingestion operation on the archive. -/
def applyOp (env : Env) (s : ArchiveState) : Op → ArchiveState
  | Op.single p n st ip => insert_patient_record env s p n st ip
  | Op.bulk meta sp ok folders =>
    (ingest_big_data_archive env meta sp ok folders s).1

/-- Effect of a sequence of ingestion operations. -/
def applyOps (env : Env) (ops : List Op) (s : ArchiveState) : ArchiveState :=
  ops.foldl (applyOp env) s

/-- The dedup key of a stored document. -/
def docKey (d : ScanDoc) : String × String :=
  (d.patient_id, d.scan_type)

/-- The archive's uniqueness invariant: no two stored documents share a
(patient_id, scan_type) pair. -/
def NoDupKeys (docs : List ScanDoc) : Prop :=
  (docs.map docKey).Nodup

instance (docs : List ScanDoc) : Decidable (NoDupKeys docs) := by
  unfold NoDupKeys; infer_instance

/-- One row of the aggregation output of `mission_vector_search` after the
projection stage: patient_id, scan_type and the vector-search score. -/
structure MatchTriple where
  patient_id : String
  scan_type : String
  score : ℚ
deriving Repr, DecidableEq

/-- The anchor document handed to `mission_vector_search`; `image_vector`
is `none` when the document lacks the field. -/
structure AnchorRecord where
  patient_id : String
  scan_type : String
  image_vector : Option (List ℚ)
deriving Repr, DecidableEq

/-- Outcome of `mission_vector_search`: early return on a missing anchor or
missing vector field, otherwise the projected rows of the aggregation. -/
inductive SearchOutcome where
  | invalidAnchor
  | results (rows : List MatchTriple)
deriving Repr, DecidableEq

/-- `mission_vector_search` (demo.py lines 275-305): guard the anchor, then
run the `vectorSearch` aggregation with numCandidates 10 and limit 2 and
report the rows in the order the backend returned them — the function
itself neither reorders nor filters them. -/
def mission_vector_search (vectorQuery : List ℚ → Nat → Nat → List MatchTriple)
    (anchor : Option AnchorRecord) : SearchOutcome :=
  match anchor with
  | none => SearchOutcome.invalidAnchor
  | some a =>
    match a.image_vector with
    | none => SearchOutcome.invalidAnchor
    | some v => SearchOutcome.results (vectorQuery v 10 2)

/-- The match list of a search outcome. -/
def outcomeMatches : SearchOutcome → List MatchTriple
  | SearchOutcome.invalidAnchor => []
  | SearchOutcome.results l => l

/-- Number of distinct identities among the candidates of a dataset. -/
def distinctIdentities (ds : List Candidate) : Nat :=
  ((ds.map Candidate.patient_id).dedup).length

/-! ### Concrete fixtures used to evaluate the pipeline on explicit inputs -/

/-- An environment in which everything succeeds. -/
def envOk : Env :=
  { embed := fun _ => some []
    decode := fun _ => some [1]
    fileOk := fun _ => true
    insertOk := fun _ _ => true }

/-- Metadata lookup knowing only the identity "1". -/
def metaC1 : String → Option String :=
  fun i => if i == "1" then some "note" else none

/-- A patient folder "01" holding two scan files. -/
def foldersC1 : List (String × DirTree) :=
  [("01", DirTree.dir ["b.dcm", "a.dcm"] [])]

/-- Two single-record intakes of the same key followed by a bulk run. -/
def opsC1 : List Op :=
  [Op.single "PAT-007" "James Bond" "T2 Sagittal MRI" "hero.jpg",
   Op.single "PAT-007" "James Bond" "T2 Sagittal MRI" "hero.jpg",
   Op.bulk (some metaC1) "data" true foldersC1]

/-- An environment whose store rejects the insert of patient "P2". -/
def envC3 : Env :=
  { embed := fun _ => some []
    decode := fun _ => some [1]
    fileOk := fun _ => true
    insertOk := fun p _ => p != "P2" }

def candP1 : Candidate := ⟨"P1", "1", "Patient 1", "CT", "n1", "f1"⟩

def candP2 : Candidate := ⟨"P2", "2", "Patient 2", "CT", "n2", "f2"⟩

/-- Two candidates sharing one identity with different scan types. -/
def candA : Candidate := ⟨"PAT-1", "1", "Patient 1", "A", "n", "fa"⟩

def candB : Candidate := ⟨"PAT-1", "1", "Patient 1", "B", "n", "fb"⟩

def t91 : MatchTriple := ⟨"PAT-0002", "T1", 91 / 100⟩

def t95 : MatchTriple := ⟨"PAT-0003", "T2", 95 / 100⟩

def t80 : MatchTriple := ⟨"PAT-0004", "FLAIR", 80 / 100⟩

/-- A vector-query backend returning scores out of descending order. -/
def vqC5 : List ℚ → Nat → Nat → List MatchTriple :=
  fun _ _ _ => [t91, t95, t80]

def anchorC5 : AnchorRecord := ⟨"PAT-0001", "T2", some [1]⟩

/-- The anchor's own key, as a match row returned by the backend. -/
def tSelf : MatchTriple := ⟨"PAT-0001", "T2", 1⟩

/-- A vector-query backend returning the anchor record itself. -/
def vqC6 : List ℚ → Nat → Nat → List MatchTriple :=
  fun _ _ _ => [tSelf]

/-- An environment decoding every artifact to the pixel array `[0, -5]`,
whose per-image maximum is zero. -/
def envC8 : Env :=
  { embed := fun _ => some []
    decode := fun _ => some [0, -5]
    fileOk := fun _ => true
    insertOk := fun _ _ => true }

/-- An environment in which only the artifact at "f2" is undecodable. -/
def envC9 : Env :=
  { embed := fun _ => some []
    decode := fun f => if f == "f2" then none else if f == "f1" then some [1] else some [2]
    fileOk := fun _ => true
    insertOk := fun _ _ => true }

def candF1 : Candidate := ⟨"P1", "1", "Patient 1", "CT", "n1", "f1"⟩

def candF2 : Candidate := ⟨"P2", "2", "Patient 2", "CT", "n2", "f2"⟩

def candF3 : Candidate := ⟨"P3", "3", "Patient 3", "CT", "n3", "f3"⟩

/-- An environment whose embedding model fails on every input. -/
def envC10 : Env :=
  { embed := fun _ => none
    decode := fun _ => some [7]
    fileOk := fun _ => true
    insertOk := fun _ _ => true }

def candEmb : Candidate := ⟨"P9", "9", "Patient 9", "MR", "n", "f9"⟩

/-! ### Lemmas about the dedup count query -/

theorem countDocuments_append (pid stype : String) (l l' : List ScanDoc) :
    countDocuments pid stype (l ++ l') =
      countDocuments pid stype l + countDocuments pid stype l' := by
  simp [countDocuments, List.filter_append]

theorem countDocuments_singleton (pid stype : String) (d : ScanDoc) :
    countDocuments pid stype [d] =
      if d.patient_id = pid ∧ d.scan_type = stype then 1 else 0 := by
  by_cases h1 : d.patient_id = pid
  · by_cases h2 : d.scan_type = stype
    · simp [countDocuments, h1, h2]
    · simp [countDocuments, h1, h2]
  · simp [countDocuments, h1]

theorem countDocuments_eq_zero_iff (pid stype : String) (docs : List ScanDoc) :
    countDocuments pid stype docs = 0 ↔ (pid, stype) ∉ docs.map docKey := by
  constructor
  · intro h hmem
    rcases List.mem_map.mp hmem with ⟨d, hd, hkey⟩
    have h1 : d.patient_id = pid := congrArg Prod.fst hkey
    have h2 : d.scan_type = stype := congrArg Prod.snd hkey
    have : d ∈ docs.filter (fun d => d.patient_id == pid && d.scan_type == stype) :=
      List.mem_filter.mpr ⟨hd, by simp [h1, h2]⟩
    have hlen : 0 < countDocuments pid stype docs := by
      have := List.length_pos.mpr (List.ne_nil_of_mem this)
      simpa [countDocuments] using this
    omega
  · intro h
    have : docs.filter (fun d => d.patient_id == pid && d.scan_type == stype) = [] := by
      rw [List.filter_eq_nil_iff]
      intro d hd hmatch
      have h1 : d.patient_id = pid := by
        have := (Bool.and_eq_true _ _).mp hmatch |>.1
        simpa using this
      have h2 : d.scan_type = stype := by
        have := (Bool.and_eq_true _ _).mp hmatch |>.2
        simpa using this
      exact h (List.mem_map.mpr ⟨d, hd, by simp [docKey, h1, h2]⟩)
    simp [countDocuments, this]

theorem countDocuments_pos_mono (pid stype : String) (l t : List ScanDoc)
    (h : 0 < countDocuments pid stype l) :
    0 < countDocuments pid stype (l ++ t) := by
  rw [countDocuments_append]; omega

/-! ### Per-branch shape of one bulk-loop iteration -/

theorem ingestStep_skip (env : Env) (s : ArchiveState) (stats : RunStats)
    (r : Candidate) (h : 0 < countDocuments r.patient_id r.scan_type s.docs) :
    ingestStep env (s, stats) r =
      (s, ⟨stats.success_count, stats.failures, stats.dedup_queries + 1⟩) := by
  simp [ingestStep, h]

theorem ingestStep_decode_none (env : Env) (s : ArchiveState) (stats : RunStats)
    (r : Candidate) (h : countDocuments r.patient_id r.scan_type s.docs = 0)
    (hd : env.decode r.file_path = none) :
    ingestStep env (s, stats) r =
      (s, ⟨stats.success_count, stats.failures + 1, stats.dedup_queries + 1⟩) := by
  simp [ingestStep, h, hd]

theorem ingestStep_insert (env : Env) (s : ArchiveState) (stats : RunStats)
    (r : Candidate) (px : List Int)
    (h : countDocuments r.patient_id r.scan_type s.docs = 0)
    (hd : env.decode r.file_path = some px)
    (hi : env.insertOk r.patient_id r.scan_type = true) :
    ingestStep env (s, stats) r =
      (⟨s.docs ++ [bulkDoc env r px s.files.length], s.files ++ [bulkFileName r]⟩,
       ⟨stats.success_count + 1, stats.failures, stats.dedup_queries + 1⟩) := by
  simp [ingestStep, h, hd, hi]

theorem ingestStep_insert_fail (env : Env) (s : ArchiveState) (stats : RunStats)
    (r : Candidate) (px : List Int)
    (h : countDocuments r.patient_id r.scan_type s.docs = 0)
    (hd : env.decode r.file_path = some px)
    (hi : env.insertOk r.patient_id r.scan_type = false) :
    ingestStep env (s, stats) r =
      (⟨s.docs, s.files ++ [bulkFileName r]⟩,
       ⟨stats.success_count, stats.failures + 1, stats.dedup_queries + 1⟩) := by
  simp [ingestStep, h, hd, hi]

/-! ### The bulk loop as a fold: monotonicity, saturation, idempotence -/

theorem ingestStep_docs_extend (env : Env) (s : ArchiveState) (stats : RunStats)
    (r : Candidate) :
    ∃ t, ((ingestStep env (s, stats) r).1).docs = s.docs ++ t := by
  by_cases h : 0 < countDocuments r.patient_id r.scan_type s.docs
  · exact ⟨[], by rw [ingestStep_skip env s stats r h]; simp⟩
  · have h0 : countDocuments r.patient_id r.scan_type s.docs = 0 := by omega
    cases hd : env.decode r.file_path with
    | none => exact ⟨[], by rw [ingestStep_decode_none env s stats r h0 hd]; simp⟩
    | some px =>
      cases hi : env.insertOk r.patient_id r.scan_type with
      | true =>
        exact ⟨[bulkDoc env r px s.files.length],
          by rw [ingestStep_insert env s stats r px h0 hd hi]⟩
      | false =>
        exact ⟨[], by rw [ingestStep_insert_fail env s stats r px h0 hd hi]; simp⟩

theorem foldl_ingest_docs_extend (env : Env) (ds : List Candidate) :
    ∀ (s : ArchiveState) (stats : RunStats),
      ∃ t, ((ds.foldl (ingestStep env) (s, stats)).1).docs = s.docs ++ t := by
  induction ds with
  | nil => intro s stats; exact ⟨[], by simp⟩
  | cons r rest ih =>
    intro s stats
    obtain ⟨t1, h1⟩ := ingestStep_docs_extend env s stats r
    obtain ⟨t2, h2⟩ :=
      ih (ingestStep env (s, stats) r).1 (ingestStep env (s, stats) r).2
    refine ⟨t1 ++ t2, ?_⟩
    rw [List.foldl_cons]
    rw [show rest.foldl (ingestStep env) (ingestStep env (s, stats) r)
        = rest.foldl (ingestStep env)
            ((ingestStep env (s, stats) r).1, (ingestStep env (s, stats) r).2) from rfl]
    rw [h2, h1, List.append_assoc]

theorem countDocuments_pos_foldl (env : Env) (ds : List Candidate)
    (s : ArchiveState) (stats : RunStats) (pid stype : String)
    (h : 0 < countDocuments pid stype s.docs) :
    0 < countDocuments pid stype ((ds.foldl (ingestStep env) (s, stats)).1).docs := by
  obtain ⟨t, ht⟩ := foldl_ingest_docs_extend env ds s stats
  rw [ht]
  exact countDocuments_pos_mono _ _ _ _ h

/-- A candidate the run cannot archive: its DICOM decode raises, or its
insert raises. -/
def candFails (env : Env) (r : Candidate) : Prop :=
  env.decode r.file_path = none ∨ env.insertOk r.patient_id r.scan_type = false

theorem foldl_ingest_establishes (env : Env) (ds : List Candidate) :
    ∀ (s : ArchiveState) (stats : RunStats), ∀ r ∈ ds,
      0 < countDocuments r.patient_id r.scan_type
          ((ds.foldl (ingestStep env) (s, stats)).1).docs
        ∨ candFails env r := by
  induction ds with
  | nil => intro s stats r hr; cases hr
  | cons c rest ih =>
    intro s stats r hr
    rw [List.foldl_cons]
    rcases List.mem_cons.mp hr with rfl | hr'
    · by_cases h : 0 < countDocuments r.patient_id r.scan_type s.docs
      · left
        rw [ingestStep_skip env s stats r h]
        exact countDocuments_pos_foldl env rest s _ _ _ h
      · have h0 : countDocuments r.patient_id r.scan_type s.docs = 0 := by omega
        cases hd : env.decode r.file_path with
        | none => exact Or.inr (Or.inl hd)
        | some px =>
          cases hi : env.insertOk r.patient_id r.scan_type with
          | false => exact Or.inr (Or.inr hi)
          | true =>
            left
            rw [ingestStep_insert env s stats r px h0 hd hi]
            apply countDocuments_pos_foldl
            show 0 < countDocuments r.patient_id r.scan_type
              (s.docs ++ [bulkDoc env r px s.files.length])
            rw [countDocuments_append, countDocuments_singleton]
            simp [bulkDoc]
    · exact ih (ingestStep env (s, stats) c).1 (ingestStep env (s, stats) c).2 r hr'

theorem foldl_ingest_noop (env : Env) (ds : List Candidate) :
    ∀ (s : ArchiveState) (stats : RunStats),
      (∀ r ∈ ds, 0 < countDocuments r.patient_id r.scan_type s.docs
          ∨ candFails env r) →
      ((ds.foldl (ingestStep env) (s, stats)).1).docs = s.docs := by
  induction ds with
  | nil => intro s stats _; rfl
  | cons c rest ih =>
    intro s stats hall
    have hc := hall c (List.mem_cons_self c rest)
    have htail : ∀ r ∈ rest,
        0 < countDocuments r.patient_id r.scan_type s.docs ∨ candFails env r :=
      fun r hr => hall r (List.mem_cons_of_mem c hr)
    rw [List.foldl_cons]
    by_cases h : 0 < countDocuments c.patient_id c.scan_type s.docs
    · rw [ingestStep_skip env s stats c h]
      exact ih s _ htail
    · have h0 : countDocuments c.patient_id c.scan_type s.docs = 0 := by omega
      cases hd : env.decode c.file_path with
      | none =>
        rw [ingestStep_decode_none env s stats c h0 hd]
        exact ih s _ htail
      | some px =>
        have hi : env.insertOk c.patient_id c.scan_type = false := by
          rcases hc with hpos | hf
          · exact absurd hpos h
          · rcases hf with hd' | hi'
            · rw [hd] at hd'; cases hd'
            · exact hi'
        rw [ingestStep_insert_fail env s stats c px h0 hd hi]
        exact ih ⟨s.docs, s.files ++ [bulkFileName c]⟩ _ htail

/-! ### Preservation of the key-uniqueness invariant -/

theorem noDupKeys_append_doc (docs : List ScanDoc) (d : ScanDoc)
    (hnd : NoDupKeys docs)
    (h : countDocuments d.patient_id d.scan_type docs = 0) :
    NoDupKeys (docs ++ [d]) := by
  have hmem := (countDocuments_eq_zero_iff _ _ docs).mp h
  unfold NoDupKeys at *
  rw [List.map_append]
  refine List.Nodup.append hnd (by simp) ?_
  intro x hx hx'
  have : x = docKey d := by simpa using hx'
  subst this
  exact hmem hx

theorem ingestStep_noDup (env : Env) (s : ArchiveState) (stats : RunStats)
    (r : Candidate) (h : NoDupKeys s.docs) :
    NoDupKeys ((ingestStep env (s, stats) r).1).docs := by
  by_cases hc : 0 < countDocuments r.patient_id r.scan_type s.docs
  · rw [ingestStep_skip env s stats r hc]; exact h
  · have h0 : countDocuments r.patient_id r.scan_type s.docs = 0 := by omega
    cases hd : env.decode r.file_path with
    | none => rw [ingestStep_decode_none env s stats r h0 hd]; exact h
    | some px =>
      cases hi : env.insertOk r.patient_id r.scan_type with
      | false => rw [ingestStep_insert_fail env s stats r px h0 hd hi]; exact h
      | true =>
        rw [ingestStep_insert env s stats r px h0 hd hi]
        exact noDupKeys_append_doc s.docs _ h h0

theorem foldl_ingest_noDup (env : Env) (ds : List Candidate) :
    ∀ (s : ArchiveState) (stats : RunStats), NoDupKeys s.docs →
      NoDupKeys ((ds.foldl (ingestStep env) (s, stats)).1).docs := by
  induction ds with
  | nil => intro s stats h; exact h
  | cons c rest ih =>
    intro s stats h
    rw [List.foldl_cons]
    exact ih (ingestStep env (s, stats) c).1 (ingestStep env (s, stats) c).2
      (ingestStep_noDup env s stats c h)

theorem insert_patient_record_noDup (env : Env) (s : ArchiveState)
    (p_id nm s_type img_path : String) (h : NoDupKeys s.docs) :
    NoDupKeys (insert_patient_record env s p_id nm s_type img_path).docs := by
  by_cases hc : 0 < countDocuments p_id s_type s.docs
  · simpa [insert_patient_record, hc] using h
  · have h0 : countDocuments p_id s_type s.docs = 0 := by omega
    by_cases hf : env.fileOk img_path
    · by_cases hi : env.insertOk p_id s_type
      · have : insert_patient_record env s p_id nm s_type img_path =
            ⟨s.docs ++ [singleDoc env p_id nm s_type img_path s.files.length],
             s.files ++ [p_id ++ "_" ++ s_type ++ ".jpg"]⟩ := by
          simp [insert_patient_record, hc, hf, hi]
        rw [this]
        exact noDupKeys_append_doc s.docs _ h h0
      · simpa [insert_patient_record, hc, hf, hi] using h
    · simpa [insert_patient_record, hc, hf] using h

theorem ingest_big_data_archive_noDup (env : Env)
    (meta : Option (String → Option String)) (source_path : String)
    (sourceOk : Bool) (folders : List (String × DirTree)) (s : ArchiveState)
    (h : NoDupKeys s.docs) :
    NoDupKeys ((ingest_big_data_archive env meta source_path sourceOk folders s).1).docs := by
  cases meta with
  | none => exact h
  | some m =>
    cases sourceOk with
    | false => simpa [ingest_big_data_archive] using h
    | true =>
      simp only [ingest_big_data_archive, if_pos]
      exact foldl_ingest_noDup env _ s _ h

theorem applyOp_noDup (env : Env) (s : ArchiveState) (op : Op)
    (h : NoDupKeys s.docs) : NoDupKeys (applyOp env s op).docs := by
  cases op with
  | single p n st ip => exact insert_patient_record_noDup env s p n st ip h
  | bulk meta sp ok folders => exact ingest_big_data_archive_noDup env meta sp ok folders s h

/-! ### Counting dedup queries -/

theorem ingestStep_dedup (env : Env) (s : ArchiveState) (stats : RunStats)
    (r : Candidate) :
    ((ingestStep env (s, stats) r).2).dedup_queries = stats.dedup_queries + 1 := by
  by_cases hc : 0 < countDocuments r.patient_id r.scan_type s.docs
  · rw [ingestStep_skip env s stats r hc]
  · have h0 : countDocuments r.patient_id r.scan_type s.docs = 0 := by omega
    cases hd : env.decode r.file_path with
    | none => rw [ingestStep_decode_none env s stats r h0 hd]
    | some px =>
      cases hi : env.insertOk r.patient_id r.scan_type with
      | true => rw [ingestStep_insert env s stats r px h0 hd hi]
      | false => rw [ingestStep_insert_fail env s stats r px h0 hd hi]

theorem foldl_ingest_dedup (env : Env) (ds : List Candidate) :
    ∀ (s : ArchiveState) (stats : RunStats),
      ((ds.foldl (ingestStep env) (s, stats)).2).dedup_queries
        = stats.dedup_queries + ds.length := by
  induction ds with
  | nil => intro s stats; simp
  | cons c rest ih =>
    intro s stats
    rw [List.foldl_cons]
    rw [show rest.foldl (ingestStep env) (ingestStep env (s, stats) c)
        = rest.foldl (ingestStep env)
            ((ingestStep env (s, stats) c).1, (ingestStep env (s, stats) c).2) from rfl]
    rw [ih, ingestStep_dedup]
    simp [List.length_cons]
    omega

/-! ### The lexicographic file order -/

theorem lexLeB_cons_iff (a b : Char) (as bs : List Char) :
    lexLeB (a :: as) (b :: bs) = true ↔
      (a.toNat < b.toNat ∨ (a.toNat = b.toNat ∧ lexLeB as bs = true)) := by
  by_cases h1 : a.toNat < b.toNat
  · simp [lexLeB, h1]
  · by_cases h2 : b.toNat < a.toNat
    · have hne : ¬ a.toNat = b.toNat := by omega
      simp [lexLeB, h1, h2, hne]
    · have he : a.toNat = b.toNat := by omega
      simp [lexLeB, h1, h2, he]

theorem lexLeB_total : ∀ a b : List Char, lexLeB a b = true ∨ lexLeB b a = true
  | [], _ => Or.inl rfl
  | _ :: _, [] => Or.inr rfl
  | a :: as, b :: bs => by
    rcases Nat.lt_trichotomy a.toNat b.toNat with h | h | h
    · exact Or.inl ((lexLeB_cons_iff a b as bs).mpr (Or.inl h))
    · rcases lexLeB_total as bs with hr | hr
      · exact Or.inl ((lexLeB_cons_iff a b as bs).mpr (Or.inr ⟨h, hr⟩))
      · exact Or.inr ((lexLeB_cons_iff b a bs as).mpr (Or.inr ⟨h.symm, hr⟩))
    · exact Or.inr ((lexLeB_cons_iff b a bs as).mpr (Or.inl h))

theorem lexLeB_trans : ∀ a b c : List Char,
    lexLeB a b = true → lexLeB b c = true → lexLeB a c = true
  | [], _, _, _, _ => rfl
  | _ :: _, [], _, hab, _ => by simp [lexLeB] at hab
  | _ :: _, _ :: _, [], _, hbc => by simp [lexLeB] at hbc
  | a :: as, b :: bs, c :: cs, hab, hbc => by
    rw [lexLeB_cons_iff] at hab hbc ⊢
    rcases hab with h | ⟨he, hr⟩
    · rcases hbc with h' | ⟨he', _⟩
      · exact Or.inl (by omega)
      · exact Or.inl (by omega)
    · rcases hbc with h' | ⟨he', hr'⟩
      · exact Or.inl (by omega)
      · exact Or.inr ⟨by omega, lexLeB_trans as bs cs hr hr'⟩

theorem lexLeB_antisymm : ∀ a b : List Char,
    lexLeB a b = true → lexLeB b a = true → a = b
  | [], [], _, _ => rfl
  | [], _ :: _, _, hba => by simp [lexLeB] at hba
  | _ :: _, [], hab, _ => by simp [lexLeB] at hab
  | a :: as, b :: bs, hab, hba => by
    rw [lexLeB_cons_iff] at hab hba
    have he : a.toNat = b.toNat := by
      rcases hab with h | ⟨h, _⟩ <;> rcases hba with h' | ⟨h', _⟩ <;> omega
    have hr : lexLeB as bs = true := by
      rcases hab with h | ⟨_, hr⟩
      · omega
      · exact hr
    have hr' : lexLeB bs as = true := by
      rcases hba with h | ⟨_, hr'⟩
      · omega
      · exact hr'
    have hc : a = b :=
      Char.eq_of_val_eq (UInt32.eq_of_toBitVec_eq (BitVec.eq_of_toNat_eq he))
    rw [hc, lexLeB_antisymm as bs hr hr']

theorem fileOrder_total (a b : String) : fileOrder a b ∨ fileOrder b a :=
  lexLeB_total a.toList b.toList

theorem fileOrder_trans (a b c : String) :
    fileOrder a b → fileOrder b c → fileOrder a c :=
  lexLeB_trans a.toList b.toList c.toList

theorem fileOrder_antisymm (a b : String) :
    fileOrder a b → fileOrder b a → a = b := by
  intro h h'
  have hl : a.toList = b.toList := lexLeB_antisymm _ _ h h'
  cases a with
  | mk da =>
    cases b with
    | mk db => exact congrArg String.mk hl

/-! ### The claims -/

/-- C1: for every sequence of ingestion operations (single-record intake via
`insert_patient_record` and bulk intake via `ingest_big_data_archive`)
starting from an archive with no duplicate keys, the archive keeps the
invariant that the stored (patient_id, scan_type) pairs have no duplicates:
every operation checks for an existing record with that pair before
inserting. -/
theorem C1_key_uniqueness_invariant (env : Env) (ops : List Op)
    (s : ArchiveState) (h : NoDupKeys s.docs) :
    NoDupKeys (applyOps env ops s).docs := by
  induction ops generalizing s with
  | nil => exact h
  | cons op rest ih =>
    have hstep := applyOp_noDup env s op h
    simpa [applyOps, List.foldl_cons] using ih (applyOp env s op) hstep

/-- Witness for C1: a duplicate single-record intake followed by a bulk run
over a concrete directory, starting from the empty archive. -/
theorem C1_witness :
    NoDupKeys (⟨[], []⟩ : ArchiveState).docs ∧
    NoDupKeys (applyOps envOk opsC1 ⟨[], []⟩).docs :=
  ⟨by decide, C1_key_uniqueness_invariant envOk opsC1 ⟨[], []⟩ (by decide)⟩

/-- C2: for every directory tree, metadata source and initial archive
state, running the bulk ingestion twice in sequence over the unchanged
directory yields the same archive (document collection) as running it once:
the second run's per-candidate existence check skips every candidate the
first run archived and every other candidate fails identically, so no
record is inserted. -/
theorem C2_bulk_ingestion_idempotent (env : Env)
    (meta : Option (String → Option String)) (source_path : String)
    (sourceOk : Bool) (folders : List (String × DirTree)) (s : ArchiveState) :
    ((ingest_big_data_archive env meta source_path sourceOk folders
        (ingest_big_data_archive env meta source_path sourceOk folders s).1).1).docs
      = ((ingest_big_data_archive env meta source_path sourceOk folders s).1).docs := by
  cases meta with
  | none => rfl
  | some m =>
    cases sourceOk with
    | false => rfl
    | true =>
      simp only [ingest_big_data_archive, ingestLoop, if_pos]
      apply foldl_ingest_noop
      intro r hr
      exact foldl_ingest_establishes env _ s ⟨0, 0, 0⟩ r hr

/-- C3, counterexample: the code has no batch-end bulk write — with a store
that rejects candidate "P2"'s insert, the run logs one write failure yet
candidate "P1"'s record is committed (and it is already committed right
after "P1"'s own iteration, before the rest of the batch is processed). -/
theorem C3_counterexample :
    ((ingestStep envC3 (⟨[], []⟩, ⟨0, 0, 0⟩) candP1).1).docs.length = 1 ∧
    (ingestLoop envC3 ⟨[], []⟩ [candP1, candP2]).2.failures = 1 ∧
    ((ingestLoop envC3 ⟨[], []⟩ [candP1, candP2]).1).docs.map docKey
      = [("P1", "CT")] :=
  ⟨by decide, by decide, by decide⟩

/-- C3, amended: each fully formed ScanRecord is committed individually by
`insert_one` during its own loop iteration, not as a batch-end bulk write;
a failing insert loses only its own record, records inserted earlier in the
run remain committed. -/
theorem C3_per_record_commit (env : Env) (s : ArchiveState) (stats : RunStats)
    (r : Candidate) (px : List Int)
    (hdup : countDocuments r.patient_id r.scan_type s.docs = 0)
    (hdec : env.decode r.file_path = some px) :
    (env.insertOk r.patient_id r.scan_type = true →
      ((ingestStep env (s, stats) r).1).docs
        = s.docs ++ [bulkDoc env r px s.files.length]) ∧
    (env.insertOk r.patient_id r.scan_type = false →
      ((ingestStep env (s, stats) r).1).docs = s.docs) := by
  constructor
  · intro hi
    rw [ingestStep_insert env s stats r px hdup hdec hi]
  · intro hi
    rw [ingestStep_insert_fail env s stats r px hdup hdec hi]

/-- Witness for C3 (amended): candidate "P1" is committed by its own
iteration, from the empty archive. -/
theorem C3_witness :
    ((ingestStep envC3 (⟨[], []⟩, ⟨0, 0, 0⟩) candP1).1).docs
      = [bulkDoc envC3 candP1 [1] 0] := by
  have h := (C3_per_record_commit envC3 ⟨[], []⟩ ⟨0, 0, 0⟩ candP1 [1]
    (by decide) rfl).1 (by decide)
  simpa using h

/-- C4, counterexample: the dedup check is issued per candidate — two
candidates of a single identity cost two `count_documents` queries, more
than the one distinct identity involved. -/
theorem C4_counterexample :
    (ingestLoop envOk ⟨[], []⟩ [candA, candB]).2.dedup_queries = 2 ∧
    distinctIdentities [candA, candB] = 1 ∧
    ¬ (ingestLoop envOk ⟨[], []⟩ [candA, candB]).2.dedup_queries
        ≤ distinctIdentities [candA, candB] :=
  ⟨by decide, by decide, by decide⟩

/-- C4, amended: the bulk run performs exactly one `count_documents` dedup
query per candidate — the query count equals the number of candidates, not
the number of distinct identities. -/
theorem C4_one_dedup_query_per_candidate (env : Env) (s : ArchiveState)
    (ds : List Candidate) :
    (ingestLoop env s ds).2.dedup_queries = ds.length := by
  have h := foldl_ingest_dedup env ds s ⟨0, 0, 0⟩
  simpa [ingestLoop] using h

/-- C5, counterexample: with the backend returning scores in the order
0.91, 0.95, 0.80, the orchestrator reports them in that same order, not
re-sorted to 0.95, 0.91, 0.80. -/
theorem C5_counterexample :
    (outcomeMatches (mission_vector_search vqC5 (some anchorC5))).map
        MatchTriple.score = [91 / 100, 95 / 100, 80 / 100] ∧
    ([91 / 100, 95 / 100, 80 / 100] : List ℚ)
      ≠ [95 / 100, 91 / 100, 80 / 100] := by
  constructor
  · rfl
  · intro h
    simp only [List.cons.injEq] at h
    exact absurd h.1 (by norm_num)

/-- C5, amended: the orchestrator returns the match rows in exactly the
order the vector query adapter produced them; it performs no sorting, so
descending-score order holds only if the adapter already ranked them. -/
theorem C5_adapter_order_preserved
    (vq : List ℚ → Nat → Nat → List MatchTriple) (a : AnchorRecord)
    (v : List ℚ) (hv : a.image_vector = some v) :
    (outcomeMatches (mission_vector_search vq (some a))).map MatchTriple.score
      = (vq v 10 2).map MatchTriple.score := by
  simp [mission_vector_search, hv, outcomeMatches]

/-- Witness for C5 (amended): at the unordered backend of the
counterexample scenario. -/
theorem C5_witness :
    anchorC5.image_vector = some [1] ∧
    (outcomeMatches (mission_vector_search vqC5 (some anchorC5))).map
        MatchTriple.score = (vqC5 [1] 10 2).map MatchTriple.score :=
  ⟨rfl, C5_adapter_order_preserved vqC5 anchorC5 [1] rfl⟩

/-- C6, counterexample: when the backend returns a row carrying the anchor
record's own (patient_id, scan_type), the orchestrator returns it — it has
no exclusion filter. -/
theorem C6_counterexample :
    tSelf ∈ outcomeMatches (mission_vector_search vqC6 (some anchorC5)) ∧
    tSelf.patient_id = anchorC5.patient_id ∧
    tSelf.scan_type = anchorC5.scan_type := by
  refine ⟨?_, rfl, rfl⟩
  simp [mission_vector_search, outcomeMatches, vqC6, anchorC5]

/-- C6, amended: the orchestrator performs no exclusion of the anchor's
identity/category — every row the adapter returns is in the result, even a
row whose (patient_id, scan_type) equals the anchor's. -/
theorem C6_no_anchor_exclusion (vq : List ℚ → Nat → Nat → List MatchTriple)
    (a : AnchorRecord) (v : List ℚ) (t : MatchTriple)
    (hv : a.image_vector = some v) (ht : t ∈ vq v 10 2)
    (hp : t.patient_id = a.patient_id) (hs : t.scan_type = a.scan_type) :
    t ∈ outcomeMatches (mission_vector_search vq (some a)) := by
  simpa [mission_vector_search, hv, outcomeMatches] using ht

/-- Witness for C6 (amended): the anchor's own row flows through. -/
theorem C6_witness :
    tSelf ∈ outcomeMatches (mission_vector_search vqC6 (some anchorC5)) :=
  C6_no_anchor_exclusion vqC6 anchorC5 [1] tSelf rfl
    (by simp [vqC6]) rfl rfl

/-- C7: for every directory file list whose recognized scan files are
nonempty, the Indexer selects exactly the file at index n / 2 (integer
division) of the lexicographically sorted list of the n recognized files —
here `l` is any sorted permutation of the recognized files, so the chosen
file is the median-index element of the lexicographic order. -/
theorem C7_median_selection (files l : List String)
    (hperm : l.Perm (files.filter isDicomFile))
    (hsort : l.Sorted fileOrder)
    (hne : files.filter isDicomFile ≠ []) :
    selectRepresentative files
      = some (l.getD ((files.filter isDicomFile).length / 2) "") := by
  letI : IsTotal String fileOrder := ⟨fileOrder_total⟩
  letI : IsTrans String fileOrder := ⟨fileOrder_trans⟩
  letI : IsAntisymm String fileOrder := ⟨fileOrder_antisymm⟩
  have hsorted := List.sorted_insertionSort fileOrder (files.filter isDicomFile)
  have hperm' : (List.insertionSort fileOrder (files.filter isDicomFile)).Perm l :=
    (List.perm_insertionSort fileOrder _).trans hperm.symm
  have heq : List.insertionSort fileOrder (files.filter isDicomFile) = l :=
    List.eq_of_perm_of_sorted hperm' hsorted hsort
  show (if (files.filter isDicomFile).isEmpty then none
    else some ((List.insertionSort fileOrder (files.filter isDicomFile)).getD
      ((files.filter isDicomFile).length / 2) "")) = _
  rw [if_neg (by simpa [List.isEmpty_iff] using hne), heq]

/-- Witness for C7: three files a.dcm, b.dcm, c.dcm yield the median
b.dcm. -/
theorem C7_witness :
    (["a.dcm", "b.dcm", "c.dcm"] : List String).Sorted fileOrder ∧
    selectRepresentative ["a.dcm", "b.dcm", "c.dcm"] = some "b.dcm" := by
  constructor
  · decide
  · have h := C7_median_selection ["a.dcm", "b.dcm", "c.dcm"]
      ["a.dcm", "b.dcm", "c.dcm"] (by decide) (by decide) (by decide)
    exact h.trans (by decide)

/-- C8: the claim says a zero-valued intensity range signals EmptyPixelData
and the division by the per-image maximum is never executed; the code has
no such branch — on the pixel array [0, -5], whose maximum is 0, the
normalizer executes the division and returns a normalized image (NumPy
emits NaNs), not an EmptyPixelData signal. -/
theorem C8_zero_max_executes_division :
    arrayMax [0, -5] = 0 ∧
    process_dicom_image envC8 "scan.ima"
      = NormResult.normalized (normalizePixels [0, -5]) ∧
    NormResult.normalized (normalizePixels [0, -5])
      ≠ NormResult.emptyPixelData :=
  ⟨by decide, rfl, by simp⟩

/-- C9: per-candidate failures are isolated — in a batch of three fresh
candidates where only the second one's pixel data is undecodable, the run
commits records for candidates 1 and 3 only, reports exactly one logged
failure and two successes. -/
theorem C9_failure_isolation (env : Env) (s : ArchiveState)
    (c1 c2 c3 : Candidate) (p1 p3 : List Int)
    (h1 : env.decode c1.file_path = some p1)
    (h2 : env.decode c2.file_path = none)
    (h3 : env.decode c3.file_path = some p3)
    (i1 : env.insertOk c1.patient_id c1.scan_type = true)
    (i3 : env.insertOk c3.patient_id c3.scan_type = true)
    (d1 : countDocuments c1.patient_id c1.scan_type s.docs = 0)
    (d2 : countDocuments c2.patient_id c2.scan_type s.docs = 0)
    (d3 : countDocuments c3.patient_id c3.scan_type s.docs = 0)
    (k21 : ¬(c1.patient_id = c2.patient_id ∧ c1.scan_type = c2.scan_type))
    (k31 : ¬(c1.patient_id = c3.patient_id ∧ c1.scan_type = c3.scan_type)) :
    ((ingestLoop env s [c1, c2, c3]).1).docs
        = s.docs ++ [bulkDoc env c1 p1 s.files.length,
                     bulkDoc env c3 p3 (s.files.length + 1)] ∧
    (ingestLoop env s [c1, c2, c3]).2.failures = 1 ∧
    (ingestLoop env s [c1, c2, c3]).2.success_count = 2 := by
  have e1 := ingestStep_insert env s ⟨0, 0, 0⟩ c1 p1 d1 h1 i1
  have hc2 : countDocuments c2.patient_id c2.scan_type
      (s.docs ++ [bulkDoc env c1 p1 s.files.length]) = 0 := by
    rw [countDocuments_append, countDocuments_singleton, d2]
    simp [bulkDoc, k21]
  have e2 := ingestStep_decode_none env
    ⟨s.docs ++ [bulkDoc env c1 p1 s.files.length], s.files ++ [bulkFileName c1]⟩
    ⟨1, 0, 1⟩ c2 hc2 h2
  have hc3 : countDocuments c3.patient_id c3.scan_type
      (s.docs ++ [bulkDoc env c1 p1 s.files.length]) = 0 := by
    rw [countDocuments_append, countDocuments_singleton, d3]
    simp [bulkDoc, k31]
  have e3 := ingestStep_insert env
    ⟨s.docs ++ [bulkDoc env c1 p1 s.files.length], s.files ++ [bulkFileName c1]⟩
    ⟨1, 1, 2⟩ c3 p3 hc3 h3 i3
  have hrun : ingestLoop env s [c1, c2, c3]
      = (⟨(s.docs ++ [bulkDoc env c1 p1 s.files.length])
            ++ [bulkDoc env c3 p3 (s.files ++ [bulkFileName c1]).length],
          (s.files ++ [bulkFileName c1]) ++ [bulkFileName c3]⟩,
         ⟨2, 1, 3⟩) := by
    simp only [ingestLoop, List.foldl_cons, List.foldl_nil]
    rw [e1, e2, e3]
  rw [hrun]
  refine ⟨?_, rfl, rfl⟩
  simp [List.append_assoc]

/-- Witness for C9: three concrete candidates against an environment whose
only undecodable artifact is "f2", from the empty archive. -/
theorem C9_witness :
    ((ingestLoop envC9 ⟨[], []⟩ [candF1, candF2, candF3]).1).docs
        = [bulkDoc envC9 candF1 [1] 0, bulkDoc envC9 candF3 [2] 1] ∧
    (ingestLoop envC9 ⟨[], []⟩ [candF1, candF2, candF3]).2.failures = 1 ∧
    (ingestLoop envC9 ⟨[], []⟩ [candF1, candF2, candF3]).2.success_count = 2 := by
  have h := C9_failure_isolation envC9 ⟨[], []⟩ candF1 candF2 candF3 [1] [2]
    rfl rfl rfl rfl rfl (by decide) (by decide) (by decide)
    (by decide) (by decide)
  simpa using h

/-- C10: when the embedding step fails, `get_real_embedding` catches the
exception and returns the empty list instead of signaling a failure, and
the ingestor proceeds to insert the ScanRecord anyway, so the committed
record's image_vector is the empty sequence. -/
theorem C10_empty_vector_on_embedding_failure (env : Env) (s : ArchiveState)
    (stats : RunStats) (r : Candidate) (px : List Int)
    (hd : countDocuments r.patient_id r.scan_type s.docs = 0)
    (hdec : env.decode r.file_path = some px)
    (hemb : env.embed (ImageSource.image (normalizePixels px)) = none)
    (hins : env.insertOk r.patient_id r.scan_type = true) :
    get_real_embedding env (ImageSource.image (normalizePixels px)) = [] ∧
    ((ingestStep env (s, stats) r).1).docs
      = s.docs ++ [bulkDoc env r px s.files.length] ∧
    (bulkDoc env r px s.files.length).image_vector = [] := by
  have hg : get_real_embedding env (ImageSource.image (normalizePixels px)) = [] := by
    simp [get_real_embedding, hemb]
  refine ⟨hg, ?_, ?_⟩
  · rw [ingestStep_insert env s stats r px hd hdec hins]
  · simpa [bulkDoc] using hg

/-- Witness for C10: the all-failing embedding model yields a committed
record with an empty vector. -/
theorem C10_witness :
    ((ingestStep envC10 (⟨[], []⟩, ⟨0, 0, 0⟩) candEmb).1).docs
        = [bulkDoc envC10 candEmb [7] 0] ∧
    (bulkDoc envC10 candEmb [7] 0).image_vector = [] := by
  have h := C10_empty_vector_on_embedding_failure envC10 ⟨[], []⟩ ⟨0, 0, 0⟩
    candEmb [7] (by decide) rfl rfl rfl
  exact ⟨by simpa using h.2.1, h.2.2⟩

end MedArchive
